import Mathlib

/-!
Verification development for the Word document MCP server
(`word_mcp_server.py` and its client `client.py`).

The Python source is shallowly embedded:

* Python strings are `String` (manipulated through their `List Char` data);
* the on-disk scratch area is an association list from absolute path strings
  to file contents (`FS`);
* each remote tool is a function in a state monad `M` whose state carries the
  file system, a schedule of faults that downstream library calls may raise
  (modelling `ExternalFailure` / `IOFailure`), and a counter of converter
  `Close` calls; a Python exception is the `Except.error` case, and the
  `try/except/finally` statements are the combinators `tryCatchAll` and
  `pyFinally`.

Definition names follow the source (`get_safe_filepath`, `create_document`,
`add_heading`, `add_paragraph`, `download_document`, `convert_to_pdf`,
`upload_to_s3`, `process_document`).
-/

/-! ## Path model (POSIX)

`os.path.basename` keeps everything after the last slash;
`os.path.join(a, b)` returns `b` if `b` starts with a slash, otherwise glues
with a single slash exactly as `posixpath.join` does;
`tempfile.gettempdir()` is modelled as the canonical `/tmp`. -/

/-- `os.path.basename` on POSIX: the part of the string after the last
slash (the whole string when no slash occurs). -/
def basenameL (l : List Char) : List Char :=
  (l.reverse.takeWhile (fun c => c != '/')).reverse

/-- `posixpath.join a b` for a single extra component `b`:
`b` if it starts with a slash, else `a` glued to `b` with one slash. -/
def joinPathL (a b : List Char) : List Char :=
  if b.head? = some '/' then b
  else if a = [] ∨ a.getLast? = some '/' then a ++ b else a ++ '/' :: b

/-- The scratch directory, `tempfile.gettempdir()` on a standard Linux host. -/
def tempDir : String := "/tmp"

/-- `get_safe_filepath` from `word_mcp_server.py`:
`os.path.join(tempfile.gettempdir(), os.path.basename(filename))`. -/
def get_safe_filepath (filename : String) : String :=
  (joinPathL tempDir.toList (basenameL filename.toList)).asString

/-! ### Path normalization, used to state what a returned path refers to.
A path is split at slashes; `.` and empty segments are dropped and `..` pops
the previous segment, as the kernel resolves them against the real tree. -/

/-- Split a character list at every slash (like `p.split('/')`). -/
def splitSlash : List Char → List (List Char)
  | [] => [[]]
  | c :: rest =>
    if c = '/' then [] :: splitSlash rest
    else
      match splitSlash rest with
      | [] => [[c]]
      | g :: gs => (c :: g) :: gs

/-- Resolve `.`, `..` and empty segments of an absolute path, left to right. -/
def normSegsAux : List (List Char) → List (List Char) → List (List Char)
  | acc, [] => acc
  | acc, seg :: rest =>
    if seg = [] ∨ seg = ['.'] then normSegsAux acc rest
    else if seg = ['.', '.'] then normSegsAux acc.dropLast rest
    else normSegsAux (acc ++ [seg]) rest

/-- The list of real path segments an absolute path string refers to. -/
def normSegsL (p : List Char) : List (List Char) :=
  normSegsAux [] (splitSlash p)

/-- `p` refers to a location strictly below the directory `root`. -/
def strictlyInside (root p : String) : Prop :=
  (normSegsL root.toList).isPrefixOf (normSegsL p.toList) = true ∧
    normSegsL p.toList ≠ normSegsL root.toList

instance (root p : String) : Decidable (strictlyInside root p) := by
  unfold strictlyInside; infer_instance

/-! ### Basic lemmas about the path model -/

theorem basenameL_no_slash (l : List Char) : '/' ∉ basenameL l := by
  intro h
  unfold basenameL at h
  rw [List.mem_reverse] at h
  have := List.mem_takeWhile_imp h
  simp at this

theorem basenameL_of_no_slash {l : List Char} (h : '/' ∉ l) :
    basenameL l = l := by
  unfold basenameL
  rw [List.takeWhile_eq_self_iff.mpr, List.reverse_reverse]
  intro a ha
  rw [List.mem_reverse] at ha
  simp only [bne_iff_ne, ne_eq]
  intro rfl_eq
  exact h (rfl_eq ▸ ha)

theorem joinPathL_tmp (b : List Char) (hb : '/' ∉ b) :
    joinPathL tempDir.toList b = "/tmp/".toList ++ b := by
  unfold joinPathL
  rw [if_neg, if_neg]
  · rfl
  · decide
  · intro h
    match b, h with
    | c :: t, h =>
      apply hb
      have : c = '/' := by simpa using h
      exact this ▸ List.mem_cons_self c t

theorem get_safe_filepath_eq (f : String) :
    (get_safe_filepath f).toList = "/tmp/".toList ++ basenameL f.toList := by
  unfold get_safe_filepath
  exact joinPathL_tmp _ (basenameL_no_slash _)

/-! ## Python `str.replace`

`s.replace(pat, rep)` substitutes every non-overlapping occurrence of `pat`,
scanning left to right; a matched occurrence is replaced and scanning resumes
after it (the replacement text is not rescanned). -/

/-- Fuel-driven scanner for `replaceAllL`: one unit of fuel per examined
position, enough whenever the fuel is at least the list's length. -/
def replaceAllGo (pat rep : List Char) : Nat → List Char → List Char
  | _, [] => []
  | 0, s => s
  | fuel + 1, c :: rest =>
    if pat ≠ [] ∧ pat.isPrefixOf (c :: rest) then
      rep ++ replaceAllGo pat rep fuel ((c :: rest).drop pat.length)
    else
      c :: replaceAllGo pat rep fuel rest

/-- Left-to-right replacement of every non-overlapping occurrence of `pat`
by `rep` (Python `str.replace` for a non-empty pattern). -/
def replaceAllL (pat rep : List Char) (s : List Char) : List Char :=
  replaceAllGo pat rep s.length s

theorem replaceAllGo_fuel {pat rep : List Char} :
    ∀ f1 : Nat, ∀ f2 : Nat, ∀ s : List Char, s.length ≤ f1 → s.length ≤ f2 →
      replaceAllGo pat rep f1 s = replaceAllGo pat rep f2 s := by
  intro f1
  induction f1 with
  | zero =>
    intro f2 s hs1 _
    have : s = [] := List.eq_nil_of_length_eq_zero (Nat.le_zero.mp hs1)
    subst this
    cases f2 <;> rfl
  | succ g1 ih =>
    intro f2 s hs1 hs2
    match s, f2 with
    | [], f2 => cases f2 <;> rfl
    | c :: rest, 0 => exact absurd hs2 (by simp)
    | c :: rest, g2 + 1 =>
      show (if _ then _ else _) = (if _ then _ else _)
      by_cases hp : pat ≠ [] ∧ pat.isPrefixOf (c :: rest)
      · rw [if_pos hp, if_pos hp]
        have hpl : 1 ≤ pat.length := List.length_pos.mpr hp.1
        have hd : ((c :: rest).drop pat.length).length ≤ g1 := by
          simp only [List.length_drop, List.length_cons]
          simp only [List.length_cons] at hs1
          omega
        have hd2 : ((c :: rest).drop pat.length).length ≤ g2 := by
          simp only [List.length_drop, List.length_cons]
          simp only [List.length_cons] at hs2
          omega
        rw [ih g2 _ hd hd2]
      · rw [if_neg hp, if_neg hp]
        have h1 : rest.length ≤ g1 := by
          simp only [List.length_cons] at hs1
          omega
        have h2 : rest.length ≤ g2 := by
          simp only [List.length_cons] at hs2
          omega
        rw [ih g2 _ h1 h2]

/-- The defining one-step equation of `replaceAllL` on a non-empty list. -/
theorem replaceAllL_cons (pat rep : List Char) (c : Char) (rest : List Char) :
    replaceAllL pat rep (c :: rest) =
      if pat ≠ [] ∧ pat.isPrefixOf (c :: rest) then
        rep ++ replaceAllL pat rep ((c :: rest).drop pat.length)
      else
        c :: replaceAllL pat rep rest := by
  show (if _ then rep ++ replaceAllGo pat rep rest.length ((c :: rest).drop pat.length)
        else c :: replaceAllGo pat rep rest.length rest) = _
  by_cases hp : pat ≠ [] ∧ pat.isPrefixOf (c :: rest)
  · rw [if_pos hp, if_pos hp]
    have hpl : 1 ≤ pat.length := List.length_pos.mpr hp.1
    rw [replaceAllGo_fuel rest.length ((c :: rest).drop pat.length).length _
      (by simp only [List.length_drop, List.length_cons]; omega) (Nat.le_refl _)]
    rfl
  · rw [if_neg hp, if_neg hp]
    rfl

/-- Python `s.replace(pat, rep)` on strings. -/
def pyReplace (s pat rep : String) : String :=
  (replaceAllL pat.toList rep.toList s.toList).asString

/-- Does `pat` occur as a contiguous substring of `s`? (Python `pat in s`.) -/
def hasSubL (pat : List Char) : List Char → Bool
  | [] => pat.isEmpty
  | c :: rest => pat.isPrefixOf (c :: rest) || hasSubL pat rest

theorem replaceAllL_nil (pat rep : List Char) : replaceAllL pat rep [] = [] := by
  unfold replaceAllL
  rfl

theorem replaceAllL_of_not_hasSub {pat rep s : List Char}
    (h : hasSubL pat s = false) : replaceAllL pat rep s = s := by
  induction s with
  | nil => exact replaceAllL_nil pat rep
  | cons c rest ih =>
    unfold hasSubL at h
    rw [Bool.or_eq_false_iff] at h
    rw [replaceAllL_cons]
    rw [if_neg (by intro hc; rw [hc.2] at h; exact absurd h.1 (by simp))]
    rw [ih h.2]

theorem mem_replaceAllL {pat rep : List Char} (s : List Char) :
    ∀ c ∈ replaceAllL pat rep s, c ∈ rep ∨ c ∈ s := by
  have key : ∀ n : Nat, ∀ s : List Char, s.length ≤ n →
      ∀ c ∈ replaceAllL pat rep s, c ∈ rep ∨ c ∈ s := by
    intro n
    induction n with
    | zero =>
      intro s hs c hc
      have : s = [] := List.eq_nil_of_length_eq_zero (Nat.le_zero.mp hs)
      subst this
      rw [replaceAllL_nil] at hc
      exact absurd hc (List.not_mem_nil c)
    | succ n ih =>
      intro s hs c hc
      match s with
      | [] =>
        rw [replaceAllL_nil] at hc
        exact absurd hc (List.not_mem_nil c)
      | a :: rest =>
        rw [replaceAllL_cons] at hc
        by_cases hp : pat ≠ [] ∧ pat.isPrefixOf (a :: rest)
        · rw [if_pos hp] at hc
          rcases List.mem_append.mp hc with h1 | h2
          · exact Or.inl h1
          · have hlen : ((a :: rest).drop pat.length).length ≤ n := by
              simp only [List.length_drop, List.length_cons]
              have h1 : 1 ≤ pat.length := List.length_pos.mpr hp.1
              have h2 : rest.length + 1 ≤ n + 1 := by simpa using hs
              omega
            rcases ih _ hlen c h2 with h | h
            · exact Or.inl h
            · exact Or.inr (List.drop_subset _ _ h)
        · rw [if_neg hp] at hc
          rcases List.mem_cons.mp hc with h | h
          · exact Or.inr (h ▸ List.mem_cons_self a rest)
          · have hlen : rest.length ≤ n := by
              have : rest.length + 1 ≤ n + 1 := by simpa using hs
              omega
            rcases ih _ hlen c h with h | h
            · exact Or.inl h
            · exact Or.inr (List.mem_cons_of_mem a h)
  exact key s.length s (Nat.le_refl _)

theorem replaceAllL_cons_of_ne_head (p0 : Char) (pt rep : List Char)
    {c : Char} (t : List Char) (hc : c ≠ p0) :
    replaceAllL (p0 :: pt) rep (c :: t) = c :: replaceAllL (p0 :: pt) rep t := by
  rw [replaceAllL_cons]
  rw [if_neg]
  rintro ⟨-, hpre⟩
  simp only [List.isPrefixOf, Bool.and_eq_true, beq_iff_eq] at hpre
  exact hc hpre.1.symm

theorem replaceAllL_docx_tmp (rep f : List Char) :
    replaceAllL ".docx".toList rep ("/tmp/".toList ++ f) =
      "/tmp/".toList ++ replaceAllL ".docx".toList rep f := by
  have h1 : ".docx".toList = '.' :: "docx".toList := rfl
  show replaceAllL ".docx".toList rep ('/' :: 't' :: 'm' :: 'p' :: '/' :: f) = _
  rw [h1,
    replaceAllL_cons_of_ne_head '.' _ _ _ (by decide),
    replaceAllL_cons_of_ne_head '.' _ _ _ (by decide),
    replaceAllL_cons_of_ne_head '.' _ _ _ (by decide),
    replaceAllL_cons_of_ne_head '.' _ _ _ (by decide),
    replaceAllL_cons_of_ne_head '.' _ _ _ (by decide)]
  rfl

/-! ## The two derived target paths

`convert_to_pdf` derives its PDF output path from the resolved source path;
`process_document` independently derives the PDF logical filename from the
raw input filename before handing it to `upload_to_s3`. -/

/-- The PDF target path computed inside `convert_to_pdf`:
`pdf_path = docx_path.replace('.docx', '.pdf')`, then
`if docx_path == pdf_path: pdf_path += '.pdf'`. -/
def convertTargetPath (filename : String) : String :=
  let docx_path := get_safe_filepath filename
  let pdf_path := pyReplace docx_path ".docx" ".pdf"
  if docx_path = pdf_path then pdf_path ++ ".pdf" else pdf_path

/-- The PDF logical filename computed inside `process_document`:
`pdf_filename = filename.replace('.docx', '.pdf')`, then
`if pdf_filename == filename: pdf_filename += '.pdf'`. -/
def processPdfFilename (filename : String) : String :=
  let pdf_filename := pyReplace filename ".docx" ".pdf"
  if pdf_filename = filename then pdf_filename ++ ".pdf" else pdf_filename

/-- Modelled from the claim wording, for comparison only: replace a final
`.docx` extension by `.pdf`, and append `.pdf` when there is none. -/
def finalExtTarget (p : String) : String :=
  if ".docx".toList.isSuffixOf p.toList then
    (p.toList.take (p.toList.length - 5) ++ ".pdf".toList).asString
  else p ++ ".pdf"

theorem convertTargetPath_ne_source (f : String) :
    convertTargetPath f ≠ get_safe_filepath f := by
  unfold convertTargetPath
  by_cases h : get_safe_filepath f = pyReplace (get_safe_filepath f) ".docx" ".pdf"
  · rw [if_pos h]
    intro hh
    rw [← h] at hh
    have := congrArg String.length hh
    rw [String.length_append] at this
    have h4 : String.length ".pdf" = 4 := rfl
    omega
  · rw [if_neg h]
    exact fun hh => h hh.symm

theorem convertTargetPath_of_no_docx (f : String)
    (h : hasSubL ".docx".toList (get_safe_filepath f).toList = false) :
    convertTargetPath f = get_safe_filepath f ++ ".pdf" := by
  have hrep : pyReplace (get_safe_filepath f) ".docx" ".pdf" = get_safe_filepath f := by
    unfold pyReplace
    rw [replaceAllL_of_not_hasSub h, String.asString_toList]
  unfold convertTargetPath
  simp [hrep]

theorem string_eq_of_toList {a b : String} (h : a.toList = b.toList) : a = b :=
  String.ext h

theorem toList_append (a b : String) : (a ++ b).toList = a.toList ++ b.toList :=
  String.data_append a b

theorem pyReplace_toList (s pat rep : String) :
    (pyReplace s pat rep).toList = replaceAllL pat.toList rep.toList s.toList :=
  rfl

/-- When the logical filename has no directory separator, the PDF path that
`upload_to_s3` resolves from `process_document`'s derived filename is the very
path `convert_to_pdf` wrote. -/
theorem derived_paths_agree (f : String) (hf : '/' ∉ f.toList) :
    get_safe_filepath (processPdfFilename f) = convertTargetPath f := by
  have hp4 : '/' ∉ (".pdf" : String).toList := by decide
  have hb : basenameL f.toList = f.toList := basenameL_of_no_slash hf
  have hgsf : (get_safe_filepath f).toList = "/tmp/".toList ++ f.toList := by
    rw [get_safe_filepath_eq, hb]
  have hrS : '/' ∉ replaceAllL ".docx".toList ".pdf".toList f.toList := by
    intro hc
    rcases mem_replaceAllL _ '/' hc with h | h
    · exact absurd h (by decide)
    · exact hf h
  have hrep_gsf : (pyReplace (get_safe_filepath f) ".docx" ".pdf").toList =
      "/tmp/".toList ++ replaceAllL ".docx".toList ".pdf".toList f.toList := by
    rw [pyReplace_toList, hgsf, replaceAllL_docx_tmp]
  by_cases hq : pyReplace f ".docx" ".pdf" = f
  · -- the replacement changed nothing: both sides append `.pdf`
    have hr_eq : replaceAllL ".docx".toList ".pdf".toList f.toList = f.toList := by
      have := congrArg String.toList hq
      rwa [pyReplace_toList] at this
    have hcond : get_safe_filepath f = pyReplace (get_safe_filepath f) ".docx" ".pdf" := by
      apply string_eq_of_toList
      rw [hgsf, hrep_gsf, hr_eq]
    have hl : processPdfFilename f = pyReplace f ".docx" ".pdf" ++ ".pdf" := by
      unfold processPdfFilename
      rw [if_pos hq]
    apply string_eq_of_toList
    rw [hl]
    unfold convertTargetPath
    rw [if_pos hcond]
    rw [get_safe_filepath_eq, toList_append, toList_append, pyReplace_toList, hrep_gsf]
    rw [basenameL_of_no_slash, hr_eq, List.append_assoc]
    intro hc
    rcases List.mem_append.mp hc with h | h
    · exact hrS h
    · exact absurd h (by decide)
  · -- the replacement changed the name: both sides use the replaced name
    have hr_ne : replaceAllL ".docx".toList ".pdf".toList f.toList ≠ f.toList := by
      intro hr
      apply hq
      apply string_eq_of_toList
      rw [pyReplace_toList, hr]
    have hcond : get_safe_filepath f ≠ pyReplace (get_safe_filepath f) ".docx" ".pdf" := by
      intro hc
      apply hr_ne
      have := congrArg String.toList hc
      rw [hgsf, hrep_gsf] at this
      exact (List.append_cancel_left this).symm
    have hl : processPdfFilename f = pyReplace f ".docx" ".pdf" := by
      unfold processPdfFilename
      rw [if_neg (fun h => hq h)]
    apply string_eq_of_toList
    rw [hl]
    unfold convertTargetPath
    rw [if_neg hcond]
    rw [get_safe_filepath_eq, pyReplace_toList, hrep_gsf]
    rw [basenameL_of_no_slash hrS]

/-! ## Base64 transfer encoding

`download_document` returns `base64.b64encode(file_bytes).decode('utf-8')`;
the client in `client.py` re-pads the received text to a multiple of 4
symbols and calls `base64.b64decode`. Bytes are `Nat` values below 256. -/

/-- The standard base64 alphabet. -/
def b64alphabet : List Char :=
  "ABCDEFGHIJKLMNOPQRSTUVWXYZabcdefghijklmnopqrstuvwxyz0123456789+/".toList

/-- The symbol for a 6-bit value. -/
def b64char (n : Nat) : Char := b64alphabet.getD n 'A'

/-- The 6-bit value of a symbol (inverse of `b64char` on the alphabet). -/
def b64val (c : Char) : Nat :=
  if 65 ≤ c.toNat ∧ c.toNat ≤ 90 then c.toNat - 65
  else if 97 ≤ c.toNat ∧ c.toNat ≤ 122 then c.toNat - 71
  else if 48 ≤ c.toNat ∧ c.toNat ≤ 57 then c.toNat + 4
  else if c = '+' then 62
  else if c = '/' then 63
  else 0

/-- `base64.b64encode`: three bytes become four symbols; a trailing group of
one or two bytes is padded with `=` so the output length is a multiple of 4. -/
def b64encode : List Nat → List Char
  | [] => []
  | [a] => [b64char (a / 4), b64char (a % 4 * 16), '=', '=']
  | [a, b] => [b64char (a / 4), b64char (a % 4 * 16 + b / 16), b64char (b % 16 * 4), '=']
  | a :: b :: c :: rest =>
    b64char (a / 4) :: b64char (a % 4 * 16 + b / 16) ::
      b64char (b % 16 * 4 + c / 64) :: b64char (c % 64) :: b64encode rest

/-- `base64.b64decode` on correctly padded text: four symbols become three
bytes; a final group with one `=` yields two bytes, with `==` one byte. -/
def b64decodeChars : List Char → List Nat
  | c1 :: c2 :: c3 :: c4 :: rest =>
    if c3 = '=' then [b64val c1 * 4 + b64val c2 / 16]
    else if c4 = '=' then
      [b64val c1 * 4 + b64val c2 / 16, b64val c2 % 16 * 16 + b64val c3 / 4]
    else
      (b64val c1 * 4 + b64val c2 / 16) :: (b64val c2 % 16 * 16 + b64val c3 / 4) ::
        (b64val c3 % 4 * 64 + b64val c4) :: b64decodeChars rest
  | _ => []

/-- The client-side re-padding step of `client.py`:
`padding = len(s) % 4; if padding != 0: s += '=' * (4 - padding)`. -/
def padB64 (s : List Char) : List Char :=
  if s.length % 4 = 0 then s else s ++ List.replicate (4 - s.length % 4) '='

/-- The complete client-side save step: re-pad, then decode. -/
def clientDecode (s : List Char) : List Nat :=
  b64decodeChars (padB64 s)

theorem b64val_b64char : ∀ n, n < 64 → b64val (b64char n) = n := by decide

theorem b64char_ne_pad : ∀ n, n < 64 → b64char n ≠ '=' := by decide

theorem b64encode_length_mod (bs : List Nat) : (b64encode bs).length % 4 = 0 := by
  have key : ∀ n : Nat, ∀ bs : List Nat, bs.length ≤ n →
      (b64encode bs).length % 4 = 0 := by
    intro n
    induction n with
    | zero =>
      intro bs hbs
      have : bs = [] := List.eq_nil_of_length_eq_zero (Nat.le_zero.mp hbs)
      subst this
      rfl
    | succ n ih =>
      intro bs hbs
      match bs with
      | [] => rfl
      | [a] => simp [b64encode]
      | [a, b] => simp [b64encode]
      | a :: b :: c :: rest =>
        show (_ :: _ :: _ :: _ :: b64encode rest).length % 4 = 0
        have hr : rest.length ≤ n := by
          simp only [List.length_cons] at hbs
          omega
        have := ih rest hr
        simp only [List.length_cons]
        omega
  exact key bs.length bs (Nat.le_refl _)

theorem b64_roundtrip : ∀ bs : List Nat, (∀ x ∈ bs, x < 256) →
    b64decodeChars (b64encode bs) = bs := by
  have key : ∀ n : Nat, ∀ bs : List Nat, bs.length ≤ n → (∀ x ∈ bs, x < 256) →
      b64decodeChars (b64encode bs) = bs := by
    intro n
    induction n with
    | zero =>
      intro bs hbs _
      have : bs = [] := List.eq_nil_of_length_eq_zero (Nat.le_zero.mp hbs)
      subst this
      rfl
    | succ n ih =>
      intro bs hbs hlt
      match bs with
      | [] => rfl
      | [a] =>
        have ha : a < 256 := hlt a (by simp)
        show b64decodeChars [_, _, '=', '='] = [a]
        unfold b64decodeChars
        rw [if_pos rfl]
        have e1 : b64val (b64char (a / 4)) = a / 4 := b64val_b64char _ (by omega)
        have e2 : b64val (b64char (a % 4 * 16)) = a % 4 * 16 := b64val_b64char _ (by omega)
        rw [e1, e2]
        have : a / 4 * 4 + a % 4 * 16 / 16 = a := by omega
        rw [this]
      | [a, b] =>
        have ha : a < 256 := hlt a (by simp)
        have hb : b < 256 := hlt b (by simp)
        show b64decodeChars [_, _, _, '='] = [a, b]
        unfold b64decodeChars
        rw [if_neg (b64char_ne_pad _ (by omega)), if_pos rfl]
        have e1 : b64val (b64char (a / 4)) = a / 4 := b64val_b64char _ (by omega)
        have e2 : b64val (b64char (a % 4 * 16 + b / 16)) = a % 4 * 16 + b / 16 :=
          b64val_b64char _ (by omega)
        have e3 : b64val (b64char (b % 16 * 4)) = b % 16 * 4 := b64val_b64char _ (by omega)
        rw [e1, e2, e3]
        have g1 : a / 4 * 4 + (a % 4 * 16 + b / 16) / 16 = a := by omega
        have g2 : (a % 4 * 16 + b / 16) % 16 * 16 + b % 16 * 4 / 4 = b := by omega
        rw [g1, g2]
      | a :: b :: c :: rest =>
        have ha : a < 256 := hlt a (by simp)
        have hb : b < 256 := hlt b (by simp)
        have hc : c < 256 := hlt c (by simp)
        have hrest : ∀ x ∈ rest, x < 256 := fun x hx => hlt x (by simp [hx])
        have hlen : rest.length ≤ n := by
          simp only [List.length_cons] at hbs
          omega
        show b64decodeChars (_ :: _ :: _ :: _ :: b64encode rest) = a :: b :: c :: rest
        unfold b64decodeChars
        rw [if_neg (b64char_ne_pad _ (by omega)), if_neg (b64char_ne_pad _ (by omega))]
        have e1 : b64val (b64char (a / 4)) = a / 4 := b64val_b64char _ (by omega)
        have e2 : b64val (b64char (a % 4 * 16 + b / 16)) = a % 4 * 16 + b / 16 :=
          b64val_b64char _ (by omega)
        have e3 : b64val (b64char (b % 16 * 4 + c / 64)) = b % 16 * 4 + c / 64 :=
          b64val_b64char _ (by omega)
        have e4 : b64val (b64char (c % 64)) = c % 64 := b64val_b64char _ (by omega)
        rw [e1, e2, e3, e4, ih rest hlen hrest]
        have g1 : a / 4 * 4 + (a % 4 * 16 + b / 16) / 16 = a := by omega
        have g2 : (a % 4 * 16 + b / 16) % 16 * 16 + (b % 16 * 4 + c / 64) / 4 = b := by
          omega
        have g3 : (b % 16 * 4 + c / 64) % 4 * 64 + c % 64 = c := by omega
        rw [g1, g2, g3]
  exact fun bs => key bs.length bs (Nat.le_refl _)

theorem padB64_of_encode (bs : List Nat) : padB64 (b64encode bs) = b64encode bs := by
  unfold padB64
  rw [if_pos (b64encode_length_mod bs)]

theorem clientDecode_b64encode (bs : List Nat) (h : ∀ x ∈ bs, x < 256) :
    clientDecode (b64encode bs) = bs := by
  unfold clientDecode
  rw [padB64_of_encode, b64_roundtrip bs h]

/-! ## The server state

`FS` is the scratch directory: an association list from absolute path strings
to file contents. A file is either a Word document (a list of content blocks)
or a produced PDF. `St` adds a schedule of faults that the next external
library calls raise (`none` = the call behaves normally), and a counter of
Spire `Close` calls. -/

/-- One content block of a document (`python-docx` heading or paragraph). -/
inductive Block where
  | heading (text : String) (level : Int)
  | paragraph (text : String)
deriving DecidableEq, Repr

/-- The content of one file in the scratch directory. -/
inductive FileData where
  | docx (blocks : List Block)
  | pdf (blocks : List Block)
deriving DecidableEq, Repr

/-- The scratch directory. -/
def FS := List (String × FileData)

instance : DecidableEq FS := by
  unfold FS
  infer_instance

/-- Look up the file stored at path `p`. -/
def fsGet : FS → String → Option FileData
  | [], _ => none
  | (q, d) :: rest, p => if q = p then some d else fsGet rest p

/-- Delete every entry at path `p` (`os.remove`). -/
def fsRemove : FS → String → FS
  | [], _ => []
  | (q, d) :: rest, p => if q = p then fsRemove rest p else (q, d) :: fsRemove rest p

/-- Write `d` at path `p`, overwriting any existing file. -/
def fsSet (fs : FS) (p : String) (d : FileData) : FS :=
  (p, d) :: fsRemove fs p

theorem fsGet_fsSet_same (fs : FS) (p : String) (d : FileData) :
    fsGet (fsSet fs p d) p = some d := by
  unfold fsSet fsGet
  rw [if_pos rfl]

theorem fsGet_fsRemove (fs : FS) (p q : String) :
    fsGet (fsRemove fs p) q = if p = q then none else fsGet fs q := by
  induction fs with
  | nil => by_cases h : p = q <;> simp [fsRemove, fsGet, h]
  | cons e rest ih =>
    obtain ⟨r, d⟩ := e
    by_cases hrp : r = p <;> by_cases hrq : r = q <;> by_cases hpq : p = q <;>
      simp_all [fsRemove, fsGet]

theorem fsGet_fsSet_ne (fs : FS) (p q : String) (d : FileData) (h : p ≠ q) :
    fsGet (fsSet fs p d) q = fsGet fs q := by
  unfold fsSet
  show (if p = q then some d else fsGet (fsRemove fs p) q) = _
  rw [if_neg h, fsGet_fsRemove, if_neg h]

theorem fsGet_fsRemove_same (fs : FS) (p : String) :
    fsGet (fsRemove fs p) p = none := by
  rw [fsGet_fsRemove, if_pos rfl]

/-- A resolved path that refers to a directory rather than a regular file:
`/tmp/`, `/tmp/.` (the scratch directory itself) or `/tmp/..` (its parent).
Opening, saving or removing such a path raises `IsADirectoryError`. -/
def refersToDir (p : String) : Bool :=
  decide (normSegsL p.toList = [] ∨ normSegsL p.toList = normSegsL tempDir.toList)

/-- The mutable state a remote call runs against: the scratch directory, the
schedule of faults pending for external library calls, and how many times the
Spire converter's `Close` has run. -/
structure St where
  fs : FS
  faults : List (Option String)
  closed : Nat
deriving DecidableEq

/-- A Python computation: it returns a value or raises an exception
(modelled by its message), and may change the state. -/
def M (α : Type) := St → Except String α × St

def M.pure {α : Type} (a : α) : M α := fun s => (Except.ok a, s)

def M.bind {α β : Type} (x : M α) (f : α → M β) : M β := fun s =>
  match x s with
  | (Except.ok a, s1) => f a s1
  | (Except.error e, s1) => (Except.error e, s1)

instance : Monad M where
  pure := M.pure
  bind := M.bind

/-- Raise an exception. -/
def M.throw {α : Type} (e : String) : M α := fun s => (Except.error e, s)

/-- Python `try: body except Exception as e: handler e`. -/
def tryCatchAll {α : Type} (body : M α) (handler : String → M α) : M α := fun s =>
  match body s with
  | (Except.ok a, s1) => (Except.ok a, s1)
  | (Except.error e, s1) => handler e s1

/-- Python `try: body finally: fin` — `fin` runs on every exit path, and an
exception raised by `fin` replaces the pending result. -/
def pyFinally {α : Type} (body : M α) (fin : M Unit) : M α := fun s =>
  match body s with
  | (Except.ok a, s1) =>
    match fin s1 with
    | (Except.ok _, s2) => (Except.ok a, s2)
    | (Except.error e, s2) => (Except.error e, s2)
  | (Except.error e, s1) =>
    match fin s1 with
    | (Except.ok _, s2) => (Except.error e, s2)
    | (Except.error e2, s2) => (Except.error e2, s2)

/-- Pop the next scheduled fault (`none` when the schedule is empty). -/
def popFault : M (Option String) := fun s =>
  match s.faults with
  | [] => (Except.ok none, s)
  | f :: rest => (Except.ok f, { s with faults := rest })

/-- An external library call: it raises the next scheduled fault if one is
pending, and otherwise behaves as `act`. -/
def extCall {α : Type} (act : M α) : M α :=
  M.bind popFault fun f =>
    match f with
    | some e => M.throw e
    | none => act

/-! ## External library primitives

Each fallible library call first consumes the next scheduled fault; with no
fault pending it acts on the filesystem, still raising the deterministic
errors the real call would raise (missing file, directory path). -/

/-- `python-docx` `document.save(path)`. -/
def docSave (p : String) (blocks : List Block) : M Unit :=
  extCall fun s =>
    if refersToDir p then (Except.error "IsADirectoryError", s)
    else (Except.ok (), { s with fs := fsSet s.fs p (FileData.docx blocks) })

/-- `python-docx` `Document(path)`: load an existing Word document. -/
def docOpen (p : String) : M (List Block) :=
  extCall fun s =>
    if refersToDir p then (Except.error "IsADirectoryError", s)
    else
      match fsGet s.fs p with
      | none => (Except.error "PackageNotFoundError", s)
      | some (FileData.docx bs) => (Except.ok bs, s)
      | some (FileData.pdf _) => (Except.error "BadZipFile", s)

/-- `python-docx` `document.add_heading(text, level)`: appends a heading
block, raising `ValueError` when the level is outside `0..9`. -/
def addHeadingBlocks (bs : List Block) (text : String) (level : Int) : M (List Block) :=
  if 0 ≤ level ∧ level ≤ 9 then M.pure (bs ++ [Block.heading text level])
  else M.throw "ValueError: level must be in range 0-9"

/-- `open(path, 'rb')` followed by `.read()`. -/
def osOpenRead (p : String) : M FileData :=
  extCall fun s =>
    if refersToDir p then (Except.error "IsADirectoryError", s)
    else
      match fsGet s.fs p with
      | none => (Except.error "FileNotFoundError", s)
      | some d => (Except.ok d, s)

/-- `os.remove(path)`. -/
def osRemove (p : String) : M Unit :=
  extCall fun s =>
    if refersToDir p then (Except.error "IsADirectoryError", s)
    else if (fsGet s.fs p).isSome then
      (Except.ok (), { s with fs := fsRemove s.fs p })
    else (Except.error "FileNotFoundError", s)

/-- `os.path.exists(path)`: never raises. -/
def osPathExists (p : String) : M Bool := fun s =>
  (Except.ok (refersToDir p || (fsGet s.fs p).isSome), s)

/-- Spire `document.LoadFromFile(path)`. -/
def spireLoadFromFile (p : String) : M (List Block) :=
  extCall fun s =>
    if refersToDir p then (Except.error "IsADirectoryError", s)
    else
      match fsGet s.fs p with
      | none => (Except.error "FileNotFoundException", s)
      | some (FileData.docx bs) => (Except.ok bs, s)
      | some (FileData.pdf _) => (Except.error "UnsupportedFormatException", s)

/-- Spire `document.SaveToFile(path, FileFormat.PDF)`. -/
def spireSaveToFile (p : String) (bs : List Block) : M Unit :=
  extCall fun s =>
    if refersToDir p then (Except.error "IsADirectoryError", s)
    else (Except.ok (), { s with fs := fsSet s.fs p (FileData.pdf bs) })

/-- Spire `document.Close()`: releases the converter's native state. -/
def spireClose : M Unit := fun s =>
  (Except.ok (), { s with closed := s.closed + 1 })

/-- The byte content of one block inside the stored file. -/
def serializeBlock : Block → List Nat
  | Block.heading t l => 1 :: l.natAbs :: (t.toList.map Char.toNat ++ [0])
  | Block.paragraph t => 2 :: (t.toList.map Char.toNat ++ [0])

def serializeBlocks : List Block → List Nat
  | [] => []
  | b :: rest => serializeBlock b ++ serializeBlocks rest

/-- The byte content of a stored file, as `open(path, 'rb').read()` sees it. -/
def serialize : FileData → List Nat
  | FileData.docx bs => 1 :: serializeBlocks bs
  | FileData.pdf bs => 2 :: serializeBlocks bs

/-! ## The remote tools of `word_mcp_server.py` -/

/-- `create_document`: saves a blank document at the resolved path. The
source has no `try/except` here, so a save fault propagates. -/
def create_document (filename : String) : M String := do
  let safe_path := get_safe_filepath filename
  docSave safe_path []
  pure s!"Document '{filename}' created successfully on the server in a temporary location."

/-- `add_paragraph`: load, append a paragraph, save back; every fault is
caught and returned as an error message. -/
def add_paragraph (filename text : String) : M String :=
  let safe_path := get_safe_filepath filename
  tryCatchAll
    (do
      let bs ← docOpen safe_path
      docSave safe_path (bs ++ [Block.paragraph text])
      pure s!"Paragraph added to '{filename}'.")
    (fun e => M.pure s!"Error adding paragraph to '{filename}': {e}")

/-- `add_heading`: load, append a heading at `level`, save back; every fault
is caught and returned as an error message. -/
def add_heading (filename text : String) (level : Int) : M String :=
  let safe_path := get_safe_filepath filename
  tryCatchAll
    (do
      let bs ← docOpen safe_path
      let bs2 ← addHeadingBlocks bs text level
      docSave safe_path bs2
      pure s!"Heading added to '{filename}'.")
    (fun e => M.pure s!"Error adding heading to '{filename}': {e}")

/-- `download_document`: read the file, base64-encode it, delete it, return
the encoded text; `FileNotFoundError` gets the dedicated message and any
other fault the generic one. -/
def download_document (filename : String) : M String :=
  let safe_path := get_safe_filepath filename
  tryCatchAll
    (do
      let d ← osOpenRead safe_path
      let encoded_string := (b64encode (serialize d)).asString
      osRemove safe_path
      pure encoded_string)
    (fun e =>
      if e = "FileNotFoundError" then M.pure "Error: File not found on the server."
      else M.pure s!"Error downloading '{filename}': {e}")

/-- `convert_to_pdf`: derive the PDF path (`convertTargetPath`), load the
source with Spire, save as PDF; every fault is caught, and `Close` runs in a
`finally` block on every exit path. -/
def convert_to_pdf (filename : String) : M String :=
  let docx_path := get_safe_filepath filename
  let pdf_path := convertTargetPath filename
  let pdf_name := (basenameL pdf_path.toList).asString
  pyFinally
    (tryCatchAll
      (do
        let bs ← spireLoadFromFile docx_path
        spireSaveToFile pdf_path bs
        pure s!"Document '{filename}' successfully converted to '{pdf_name}'.")
      (fun e => M.pure s!"Error converting '{filename}' to PDF: {e}"))
    spireClose

/-- `upload_to_s3`: simulated upload; removes the local file when it exists.
No `try/except`, so a remove fault propagates. -/
def upload_to_s3 (filename : String) : M String := do
  let safe_path := get_safe_filepath filename
  let ex ← osPathExists safe_path
  if ex then osRemove safe_path else pure ()
  pure s!"PDF '{filename}' has been successfully uploaded to the S3 bucket."

/-! ### Tag extraction in `process_document`

`re.search(r'<header>(.*?)</header>', s, re.DOTALL)` finds the text between
the first `<header>` and the first `</header>` after it. -/

/-- The text after the first occurrence of `pat`, if `pat` occurs. -/
def afterFirst (pat : List Char) : List Char → Option (List Char)
  | [] => if pat = [] then some [] else none
  | c :: rest =>
    if pat.isPrefixOf (c :: rest) then some ((c :: rest).drop pat.length)
    else afterFirst pat rest

/-- The text before the first occurrence of `pat`, if `pat` occurs. -/
def beforeFirst (pat : List Char) : List Char → Option (List Char)
  | [] => if pat = [] then some [] else none
  | c :: rest =>
    if pat.isPrefixOf (c :: rest) then some []
    else (beforeFirst pat rest).map (c :: ·)

/-- Group 1 of the non-greedy DOTALL search for `opn(.*?)cls`. -/
def findTag (opn cls s : List Char) : Option (List Char) :=
  (afterFirst opn s).bind (beforeFirst cls)

/-- Python `str.strip()` (ASCII whitespace). -/
def pyStrip (l : List Char) : List Char :=
  ((l.dropWhile Char.isWhitespace).reverse.dropWhile Char.isWhitespace).reverse

/-- `process_document`: parse both tags (rejecting the input when either is
missing), then run create → add heading → add paragraph → convert → upload,
ignoring each stage's returned message, and report fixed success text. -/
def process_document (input_string filename : String) : M String :=
  let header_match := findTag "<header>".toList "</header>".toList input_string.toList
  let body_match := findTag "<body>".toList "</body>".toList input_string.toList
  match header_match, body_match with
  | some hdr, some bdy => do
      let header_text := (pyStrip hdr).asString
      let body_text := (pyStrip bdy).asString
      let _ ← create_document filename
      let _ ← add_heading filename header_text 1
      let _ ← add_paragraph filename body_text
      let pdf_filename := processPdfFilename filename
      let _ ← convert_to_pdf filename
      let _ ← upload_to_s3 pdf_filename
      pure s!"Process completed successfully. Document '{filename}' converted to '{pdf_filename}' and uploaded."
  | _, _ =>
      M.pure "Error: Input string must contain both <header> and <body> tags."

instance {ε α : Type} [DecidableEq ε] [DecidableEq α] : DecidableEq (Except ε α) := fun a b =>
  match a, b with
  | Except.ok x, Except.ok y => decidable_of_iff (x = y) (by simp)
  | Except.ok _, Except.error _ => Decidable.isFalse (by simp)
  | Except.error _, Except.ok _ => Decidable.isFalse (by simp)
  | Except.error d, Except.error e => decidable_of_iff (d = e) (by simp)

/-! ## Generic lemmas about the embedded computations -/

theorem bind_apply {α β : Type} (x : M α) (f : α → M β) (s : St) :
    (x >>= f) s =
      match x s with
      | (Except.ok a, s1) => f a s1
      | (Except.error e, s1) => (Except.error e, s1) := rfl

theorem bind_eq_ok {α β : Type} {x : M α} {f : α → M β} {s s2 : St} {r : β}
    (h : (x >>= f) s = (Except.ok r, s2)) :
    ∃ a s1, x s = (Except.ok a, s1) ∧ f a s1 = (Except.ok r, s2) := by
  rw [bind_apply] at h
  cases hx : x s with
  | mk res s1 =>
    rw [hx] at h
    cases res with
    | ok a => exact ⟨a, s1, rfl, h⟩
    | error e => exact absurd (congrArg Prod.fst h) (by simp)

theorem bind_ok_step {α β : Type} {x : M α} {f : α → M β} {s s1 : St} {a : α}
    (hx : x s = (Except.ok a, s1)) : (x >>= f) s = f a s1 := by
  rw [bind_apply, hx]

theorem bind_error_step {α β : Type} {x : M α} {f : α → M β} {s s1 : St}
    {e : String} (hx : x s = (Except.error e, s1)) :
    (x >>= f) s = (Except.error e, s1) := by
  rw [bind_apply, hx]

theorem tryCatchAll_of_body_ok {α : Type} {body : M α} {handler : String → M α}
    {s s1 : St} {a : α} (hb : body s = (Except.ok a, s1)) :
    (tryCatchAll body handler) s = (Except.ok a, s1) := by
  unfold tryCatchAll
  rw [hb]

theorem tryCatchAll_of_body_error {α : Type} {body : M α}
    {handler : String → M α} {s s1 : St} {e : String}
    (hb : body s = (Except.error e, s1)) :
    (tryCatchAll body handler) s = handler e s1 := by
  unfold tryCatchAll
  rw [hb]

theorem extCall_apply {α : Type} (act : M α) (s : St) :
    (extCall act) s =
      match s.faults with
      | [] => act s
      | some e :: rest => (Except.error e, { s with faults := rest })
      | none :: rest => act { s with faults := rest } := by
  rcases s with ⟨fs, faults, closed⟩
  cases faults with
  | nil => rfl
  | cons f rest => cases f <;> rfl

/-- `m` never changes what is stored at path `q`. -/
def PreservesFsAt (q : String) {α : Type} (m : M α) : Prop :=
  ∀ s, fsGet ((m s).2).fs q = fsGet s.fs q

/-- `m` never touches the converter-close counter. -/
def PreservesClosed {α : Type} (m : M α) : Prop :=
  ∀ s, ((m s).2).closed = s.closed

theorem preservesFsAt_bind {α β : Type} {q : String} {x : M α} {f : α → M β}
    (hx : PreservesFsAt q x) (hf : ∀ a, PreservesFsAt q (f a)) :
    PreservesFsAt q (x >>= f) := by
  intro s
  rw [bind_apply]
  cases hxs : x s with
  | mk res s1 =>
    have h1 : fsGet s1.fs q = fsGet s.fs q := by
      have := hx s
      rw [hxs] at this
      exact this
    cases res with
    | ok a => rw [hf a s1, h1]
    | error e => exact h1

theorem preservesClosed_bind {α β : Type} {x : M α} {f : α → M β}
    (hx : PreservesClosed x) (hf : ∀ a, PreservesClosed (f a)) :
    PreservesClosed (x >>= f) := by
  intro s
  rw [bind_apply]
  cases hxs : x s with
  | mk res s1 =>
    have h1 : s1.closed = s.closed := by
      have := hx s
      rw [hxs] at this
      exact this
    cases res with
    | ok a => rw [hf a s1, h1]
    | error e => exact h1

theorem preservesFsAt_tryCatchAll {α : Type} {q : String} {body : M α}
    {handler : String → M α} (hb : PreservesFsAt q body)
    (hh : ∀ e, PreservesFsAt q (handler e)) :
    PreservesFsAt q (tryCatchAll body handler) := by
  intro s
  unfold tryCatchAll
  cases hbs : body s with
  | mk res s1 =>
    have h1 : fsGet s1.fs q = fsGet s.fs q := by
      have := hb s
      rw [hbs] at this
      exact this
    cases res with
    | ok a => exact h1
    | error e => rw [hh e s1, h1]

theorem preservesClosed_tryCatchAll {α : Type} {body : M α}
    {handler : String → M α} (hb : PreservesClosed body)
    (hh : ∀ e, PreservesClosed (handler e)) :
    PreservesClosed (tryCatchAll body handler) := by
  intro s
  unfold tryCatchAll
  cases hbs : body s with
  | mk res s1 =>
    have h1 : s1.closed = s.closed := by
      have := hb s
      rw [hbs] at this
      exact this
    cases res with
    | ok a => exact h1
    | error e => rw [hh e s1, h1]

theorem preservesFsAt_extCall {α : Type} {q : String} {act : M α}
    (ha : PreservesFsAt q act) : PreservesFsAt q (extCall act) := by
  intro s
  rw [extCall_apply]
  rcases s with ⟨fs, faults, closed⟩
  cases faults with
  | nil => exact ha _
  | cons f rest => cases f with
    | none => exact ha _
    | some e => rfl

theorem preservesClosed_extCall {α : Type} {act : M α}
    (ha : PreservesClosed act) : PreservesClosed (extCall act) := by
  intro s
  rw [extCall_apply]
  rcases s with ⟨fs, faults, closed⟩
  cases faults with
  | nil => exact ha _
  | cons f rest => cases f with
    | none => exact ha _
    | some e => rfl

theorem preservesFsAt_pure {α : Type} {q : String} (a : α) :
    PreservesFsAt q (M.pure a) := fun _ => rfl

theorem preservesClosed_pure {α : Type} (a : α) :
    PreservesClosed (M.pure a) := fun _ => rfl

theorem preservesFsAt_throw {α : Type} {q : String} (e : String) :
    PreservesFsAt q (M.throw e : M α) := fun _ => rfl

theorem preservesClosed_throw {α : Type} (e : String) :
    PreservesClosed (M.throw e : M α) := fun _ => rfl

/-- Did the computation return normally (no Python exception)? -/
def isOkRes {α : Type} : Except String α → Bool
  | Except.ok _ => true
  | Except.error _ => false

theorem tryCatchAll_isOk {α : Type} (body : M α) (handler : String → M α)
    (hh : ∀ e s, isOkRes ((handler e) s).1 = true) (s : St) :
    isOkRes ((tryCatchAll body handler) s).1 = true := by
  unfold tryCatchAll
  cases hb : body s with
  | mk res s1 =>
    cases res with
    | ok a => rfl
    | error e => exact hh e s1

theorem pyFinally_spireClose_isOk {α : Type} (body : M α) (s : St)
    (hb : isOkRes ((body) s).1 = true) :
    isOkRes ((pyFinally body spireClose) s).1 = true := by
  unfold pyFinally
  cases hbs : body s with
  | mk res s1 =>
    cases res with
    | ok a => rfl
    | error e =>
      rw [hbs] at hb
      exact absurd hb (by simp [isOkRes])

/-! ### Effect footprints of the library primitives -/

theorem docSave_preservesFsAt (p : String) (blocks : List Block) {q : String}
    (h : p ≠ q) : PreservesFsAt q (docSave p blocks) := by
  unfold docSave
  apply preservesFsAt_extCall
  intro s
  show fsGet (if refersToDir p then _ else
    (Except.ok (), { s with fs := fsSet s.fs p (FileData.docx blocks) })).2.fs q = _
  split
  · rfl
  · exact fsGet_fsSet_ne s.fs p q _ h

theorem docSave_preservesClosed (p : String) (blocks : List Block) :
    PreservesClosed (docSave p blocks) := by
  unfold docSave
  apply preservesClosed_extCall
  intro s
  show ((if refersToDir p then _ else
    (Except.ok (), { s with fs := fsSet s.fs p (FileData.docx blocks) })).2).closed = _
  split <;> rfl

theorem docOpen_preservesFsAt (p q : String) : PreservesFsAt q (docOpen p) := by
  unfold docOpen
  apply preservesFsAt_extCall
  intro s
  show fsGet ((if refersToDir p then (Except.error "IsADirectoryError", s) else
    match fsGet s.fs p with
    | none => (Except.error "PackageNotFoundError", s)
    | some (FileData.docx bs) => (Except.ok bs, s)
    | some (FileData.pdf _) => (Except.error "BadZipFile", s)).2).fs q = _
  split
  · rfl
  · split <;> rfl

theorem docOpen_preservesClosed (p : String) : PreservesClosed (docOpen p) := by
  unfold docOpen
  apply preservesClosed_extCall
  intro s
  show (((if refersToDir p then (Except.error "IsADirectoryError", s) else
    match fsGet s.fs p with
    | none => (Except.error "PackageNotFoundError", s)
    | some (FileData.docx bs) => (Except.ok bs, s)
    | some (FileData.pdf _) => (Except.error "BadZipFile", s)).2)).closed = _
  split
  · rfl
  · split <;> rfl

theorem spireLoadFromFile_preservesFsAt (p q : String) :
    PreservesFsAt q (spireLoadFromFile p) := by
  unfold spireLoadFromFile
  apply preservesFsAt_extCall
  intro s
  show fsGet ((if refersToDir p then (Except.error "IsADirectoryError", s) else
    match fsGet s.fs p with
    | none => (Except.error "FileNotFoundException", s)
    | some (FileData.docx bs) => (Except.ok bs, s)
    | some (FileData.pdf _) => (Except.error "UnsupportedFormatException", s)).2).fs q = _
  split
  · rfl
  · split <;> rfl

theorem spireLoadFromFile_preservesClosed (p : String) :
    PreservesClosed (spireLoadFromFile p) := by
  unfold spireLoadFromFile
  apply preservesClosed_extCall
  intro s
  show (((if refersToDir p then (Except.error "IsADirectoryError", s) else
    match fsGet s.fs p with
    | none => (Except.error "FileNotFoundException", s)
    | some (FileData.docx bs) => (Except.ok bs, s)
    | some (FileData.pdf _) => (Except.error "UnsupportedFormatException", s)).2)).closed = _
  split
  · rfl
  · split <;> rfl

theorem spireSaveToFile_preservesFsAt (p : String) (bs : List Block) {q : String}
    (h : p ≠ q) : PreservesFsAt q (spireSaveToFile p bs) := by
  unfold spireSaveToFile
  apply preservesFsAt_extCall
  intro s
  show fsGet ((if refersToDir p then _ else
    (Except.ok (), { s with fs := fsSet s.fs p (FileData.pdf bs) })).2).fs q = _
  split
  · rfl
  · exact fsGet_fsSet_ne s.fs p q _ h

theorem spireSaveToFile_preservesClosed (p : String) (bs : List Block) :
    PreservesClosed (spireSaveToFile p bs) := by
  unfold spireSaveToFile
  apply preservesClosed_extCall
  intro s
  show (((if refersToDir p then _ else
    (Except.ok (), { s with fs := fsSet s.fs p (FileData.pdf bs) })).2)).closed = _
  split <;> rfl

theorem spireClose_preservesFsAt (q : String) : PreservesFsAt q spireClose :=
  fun _ => rfl

theorem preservesFsAt_pyFinally {α : Type} {q : String} {body : M α} {fin : M Unit}
    (hb : PreservesFsAt q body) (hf : PreservesFsAt q fin) :
    PreservesFsAt q (pyFinally body fin) := by
  intro s
  unfold pyFinally
  cases hbs : body s with
  | mk res s1 =>
    have h1 : fsGet s1.fs q = fsGet s.fs q := by
      have := hb s
      rw [hbs] at this
      exact this
    have h2 : fsGet ((fin s1).2).fs q = fsGet s1.fs q := hf s1
    cases res with
    | ok a =>
      show fsGet ((match fin s1 with
        | (Except.ok _, s2) => (Except.ok a, s2)
        | (Except.error e, s2) => (Except.error e, s2)).2).fs q = fsGet s.fs q
      cases hfs : fin s1 with
      | mk rf s2 =>
        rw [hfs] at h2
        cases rf <;> exact h2.trans h1
    | error e =>
      show fsGet ((match fin s1 with
        | (Except.ok _, s2) => (Except.error e, s2)
        | (Except.error e2, s2) => (Except.error e2, s2)).2).fs q = fsGet s.fs q
      cases hfs : fin s1 with
      | mk rf s2 =>
        rw [hfs] at h2
        cases rf <;> exact h2.trans h1

theorem pyFinally_spireClose_closed {α : Type} (body : M α)
    (hb : PreservesClosed body) (s : St) :
    (((pyFinally body spireClose) s).2).closed = s.closed + 1 := by
  unfold pyFinally
  cases hbs : body s with
  | mk res s1 =>
    have h1 : s1.closed = s.closed := by
      have := hb s
      rw [hbs] at this
      exact this
    cases res with
    | ok a => simp [spireClose, h1]
    | error e => simp [spireClose, h1]

/-! ## Claim-level support lemmas for the path resolver -/

theorem splitSlash_no_slash {b : List Char} (hb : '/' ∉ b) :
    splitSlash b = [b] := by
  induction b with
  | nil => rfl
  | cons c rest ih =>
    have hc : c ≠ '/' := fun h => hb (h ▸ List.mem_cons_self c rest)
    have hr : '/' ∉ rest := fun h => hb (List.mem_cons_of_mem c h)
    unfold splitSlash
    rw [if_neg hc, ih hr]

theorem splitSlash_tmp (b : List Char) (hb : '/' ∉ b) :
    splitSlash ("/tmp/".toList ++ b) = [[], ['t', 'm', 'p'], b] := by
  show splitSlash ('/' :: 't' :: 'm' :: 'p' :: '/' :: b) = _
  simp [splitSlash, splitSlash_no_slash hb]

theorem normSegsAux_tmp (b : List Char) (h1 : b ≠ []) (h2 : b ≠ ['.'])
    (h3 : b ≠ ['.', '.']) :
    normSegsAux [] [[], ['t', 'm', 'p'], b] = [['t', 'm', 'p'], b] := by
  simp [normSegsAux, h1, h2, h3]

/-- CLAIM C1 (amended, counterexample `C1_counterexample`): for every input
filename whose final path component (POSIX basename) is neither empty, `.`
nor `..`, the resolved path returned by `get_safe_filepath` lies strictly
inside the scratch directory `/tmp`; the resolver itself is a total function
of the input string. For the three excluded edge inputs the resolved path
refers to the scratch directory itself or to its parent, not to a
resolver-defined default name inside it. -/
theorem C1_amended_resolved_path_inside (f : String)
    (h : basenameL f.toList ∉ [([] : List Char), ['.'], ['.', '.']]) :
    strictlyInside tempDir (get_safe_filepath f) := by
  simp only [List.mem_cons, not_or] at h
  obtain ⟨h1, h2, h3, -⟩ := h
  have hb : '/' ∉ basenameL f.toList := basenameL_no_slash _
  have hpath : normSegsL (get_safe_filepath f).toList =
      [['t', 'm', 'p'], basenameL f.toList] := by
    unfold normSegsL
    rw [get_safe_filepath_eq, splitSlash_tmp _ hb, normSegsAux_tmp _ h1 h2 h3]
  have hroot : normSegsL tempDir.toList = [['t', 'm', 'p']] := by decide
  unfold strictlyInside
  rw [hpath, hroot]
  constructor
  · simp [List.isPrefixOf]
  · simp

/-- CLAIM C1, counterexample to the claim as stated: the filenames `..`, `.`
and the empty string resolve to `/tmp/..`, `/tmp/.` and `/tmp/`, none of
which lies strictly inside the scratch directory — `..` in fact refers to
the parent of the scratch directory. -/
theorem C1_counterexample :
    ¬ strictlyInside tempDir (get_safe_filepath "..") ∧
    ¬ strictlyInside tempDir (get_safe_filepath ".") ∧
    ¬ strictlyInside tempDir (get_safe_filepath "") ∧
    normSegsL (get_safe_filepath "..").toList = [] := by decide

/-- Witness for `C1_amended_resolved_path_inside` at the classic traversal
payload `../../etc/passwd`. -/
theorem C1_witness :
    basenameL ("../../etc/passwd" : String).toList ∉
      [([] : List Char), ['.'], ['.', '.']] ∧
    strictlyInside tempDir (get_safe_filepath "../../etc/passwd") :=
  ⟨by decide, C1_amended_resolved_path_inside "../../etc/passwd" (by decide)⟩

/-- CLAIM C2: for every byte string (bytes below 256), the client-side save
step of `client.py` — re-pad the received base64 text to a multiple of four
symbols, then `base64.b64decode` — exactly recovers the bytes that
`download_document` encoded with `base64.b64encode`, including the empty
string and strings whose length is not a multiple of three. -/
theorem C2_decode_encode_roundtrip (bs : List Nat) (h : ∀ x ∈ bs, x < 256) :
    clientDecode (b64encode bs) = bs :=
  clientDecode_b64encode bs h

/-- Witness for `C2_decode_encode_roundtrip` on a length-4 byte string
(so the encoding is genuinely padded) containing a zero and a 255 byte. -/
theorem C2_witness :
    (∀ x ∈ [102, 0, 255, 7], x < 256) ∧
    clientDecode (b64encode [102, 0, 255, 7]) = [102, 0, 255, 7] :=
  ⟨by decide, C2_decode_encode_roundtrip [102, 0, 255, 7] (by decide)⟩

/-- CLAIM C7 (amended, counterexample `C7_counterexample`): the conversion
target path equals the resolved source path with every occurrence of the
substring `.docx` replaced by `.pdf` (not only a final extension), and with
`.pdf` appended instead when `.docx` does not occur anywhere in the path; in
all cases the target path differs from the source path. -/
theorem C7_amended_target_path (f : String) :
    convertTargetPath f ≠ get_safe_filepath f ∧
    (hasSubL ".docx".toList (get_safe_filepath f).toList = false →
      convertTargetPath f = get_safe_filepath f ++ ".pdf") :=
  ⟨convertTargetPath_ne_source f, convertTargetPath_of_no_docx f⟩

/-- CLAIM C7, counterexample to the claim as stated: for the filename
`a.docx.docx` the code replaces both occurrences of `.docx`, producing
`/tmp/a.pdf.pdf`, while replacing only the final extension would produce
`/tmp/a.docx.pdf`. -/
theorem C7_counterexample :
    convertTargetPath "a.docx.docx" = "/tmp/a.pdf.pdf" ∧
    finalExtTarget (get_safe_filepath "a.docx.docx") = "/tmp/a.docx.pdf" ∧
    convertTargetPath "a.docx.docx" ≠ finalExtTarget (get_safe_filepath "a.docx.docx") := by
  decide

/-- Witness for `C7_amended_target_path` at a filename with no `.docx`
occurrence, where `.pdf` is appended. -/
theorem C7_witness :
    convertTargetPath "report" ≠ get_safe_filepath "report" ∧
    hasSubL ".docx".toList (get_safe_filepath "report").toList = false ∧
    convertTargetPath "report" = get_safe_filepath "report" ++ ".pdf" :=
  ⟨(C7_amended_target_path "report").1, by decide,
    (C7_amended_target_path "report").2 (by decide)⟩

/-- CLAIM C10 (amended, counterexample `C10_counterexample`): for every
logical filename that contains no `/` (so its basename is the filename
itself), the path `upload_to_s3` resolves from `process_document`'s derived
PDF filename equals the target path `convert_to_pdf` wrote; a filename with
a directory component containing `.docx` breaks the agreement. -/
theorem C10_amended_derived_paths_agree (f : String) (hf : '/' ∉ f.toList) :
    get_safe_filepath (processPdfFilename f) = convertTargetPath f :=
  derived_paths_agree f hf

/-- CLAIM C10, counterexample to the claim as stated: for the filename
`a.docx/b` the pipeline uploads-and-removes `/tmp/b` (the resolved document
itself), while the converter wrote `/tmp/b.pdf`. -/
theorem C10_counterexample :
    get_safe_filepath (processPdfFilename "a.docx/b") = "/tmp/b" ∧
    convertTargetPath "a.docx/b" = "/tmp/b.pdf" ∧
    get_safe_filepath (processPdfFilename "a.docx/b") ≠ convertTargetPath "a.docx/b" := by
  decide

/-- Witness for `C10_amended_derived_paths_agree` at `r.docx`. -/
theorem C10_witness :
    '/' ∉ ("r.docx" : String).toList ∧
    get_safe_filepath (processPdfFilename "r.docx") = convertTargetPath "r.docx" :=
  ⟨by decide, C10_amended_derived_paths_agree "r.docx" (by decide)⟩

/-- CLAIM C3 (amended, counterexample `C3_counterexample`): `add_heading`,
`add_paragraph`, `download_document` and `convert_to_pdf` catch every fault
raised by their own bodies or by downstream library calls — whatever the
filesystem and whatever fault schedule the external libraries produce — and
return a textual result instead; `create_document`, `upload_to_s3` (and
therefore `process_document`, which calls them) contain no handler, so a
fault there propagates out of the operation. -/
theorem C3_amended_handled_tools_never_raise (filename text : String)
    (level : Int) (s : St) :
    isOkRes (((add_heading filename text level) s).1) = true ∧
    isOkRes (((add_paragraph filename text) s).1) = true ∧
    isOkRes (((download_document filename) s).1) = true ∧
    isOkRes (((convert_to_pdf filename) s).1) = true := by
  refine ⟨?_, ?_, ?_, ?_⟩
  · unfold add_heading
    apply tryCatchAll_isOk
    intro e s'
    rfl
  · unfold add_paragraph
    apply tryCatchAll_isOk
    intro e s'
    rfl
  · unfold download_document
    apply tryCatchAll_isOk
    intro e s'
    by_cases he : e = "FileNotFoundError"
    · rw [if_pos he]
      rfl
    · rw [if_neg he]
      rfl
  · unfold convert_to_pdf
    apply pyFinally_spireClose_isOk
    apply tryCatchAll_isOk
    intro e s'
    rfl

/-- CLAIM C3, counterexample to the claim as stated: `create_document` and
`upload_to_s3` have no `try/except`, so with the empty filename — whose
resolved path `/tmp/` is the scratch directory itself — the underlying
`IsADirectoryError` escapes both operations unhandled. -/
theorem C3_counterexample :
    (create_document "" { fs := [], faults := [], closed := 0 }).1 =
      Except.error "IsADirectoryError" ∧
    (upload_to_s3 "" { fs := [], faults := [], closed := 0 }).1 =
      Except.error "IsADirectoryError" := by
  decide

/-- CLAIM C8: on every execution path of `convert_to_pdf` — success, load
failure, save failure, or an external fault anywhere — the Spire document's
`Close` runs exactly once before the operation returns: the close counter
grows by exactly one from any starting state. -/
theorem C8_close_runs_exactly_once (filename : String) (s : St) :
    (((convert_to_pdf filename) s).2).closed = s.closed + 1 := by
  unfold convert_to_pdf
  apply pyFinally_spireClose_closed
  apply preservesClosed_tryCatchAll
  · apply preservesClosed_bind
    · exact spireLoadFromFile_preservesClosed _
    · intro bs
      apply preservesClosed_bind
      · exact spireSaveToFile_preservesClosed _ _
      · intro _
        exact fun _ => rfl
  · intro e
    exact fun _ => rfl

/-- CLAIM C6: `convert_to_pdf` never changes the file stored at the resolved
source path — whether it succeeds or reports an error — and more generally
changes no path other than the derived conversion target. -/
theorem C6_convert_preserves_source (filename : String) (s : St) :
    fsGet (((convert_to_pdf filename) s).2).fs (get_safe_filepath filename) =
      fsGet s.fs (get_safe_filepath filename) ∧
    ∀ q : String, q ≠ convertTargetPath filename →
      fsGet (((convert_to_pdf filename) s).2).fs q = fsGet s.fs q := by
  have frame : ∀ q : String, q ≠ convertTargetPath filename →
      PreservesFsAt q (convert_to_pdf filename) := by
    intro q hq
    unfold convert_to_pdf
    apply preservesFsAt_pyFinally
    · apply preservesFsAt_tryCatchAll
      · apply preservesFsAt_bind
        · exact spireLoadFromFile_preservesFsAt _ _
        · intro bs
          apply preservesFsAt_bind
          · exact spireSaveToFile_preservesFsAt _ _ (fun h => hq h.symm)
          · intro _
            exact fun _ => rfl
      · intro e
        exact fun _ => rfl
    · exact spireClose_preservesFsAt q
  exact ⟨frame _ (Ne.symm (convertTargetPath_ne_source filename)) s,
    fun q hq => frame q hq s⟩

/-- Witness for `C6_convert_preserves_source`: a successful conversion of
`/tmp/a.docx` leaves the source entry and an unrelated path untouched. -/
theorem C6_witness :
    fsGet (((convert_to_pdf "a.docx")
        { fs := [("/tmp/a.docx", FileData.docx [])], faults := [], closed := 0 }).2).fs
        (get_safe_filepath "a.docx") =
      fsGet [("/tmp/a.docx", FileData.docx [])] (get_safe_filepath "a.docx") ∧
    fsGet (((convert_to_pdf "a.docx")
        { fs := [("/tmp/a.docx", FileData.docx [])], faults := [], closed := 0 }).2).fs
        "/tmp/x" =
      fsGet [("/tmp/a.docx", FileData.docx [])] "/tmp/x" :=
  ⟨(C6_convert_preserves_source "a.docx" _).1,
    (C6_convert_preserves_source "a.docx" _).2 "/tmp/x" (by decide)⟩

/-- CLAIM C9: when the `<header>…</header>` region or the `<body>…</body>`
region is absent from the input, `process_document` returns the descriptive
error message and leaves the whole state — filesystem included — exactly as
it was: no document is created, mutated, converted or deleted. -/
theorem C9_parse_failure_no_writes (input_string filename : String) (s : St)
    (h : findTag "<header>".toList "</header>".toList input_string.toList = none ∨
         findTag "<body>".toList "</body>".toList input_string.toList = none) :
    (process_document input_string filename) s =
      (Except.ok "Error: Input string must contain both <header> and <body> tags.", s) := by
  unfold process_document
  rcases h with h | h
  · rw [h]
    cases hb : findTag "<body>".toList "</body>".toList input_string.toList <;> rfl
  · rw [h]
    cases hh : findTag "<header>".toList "</header>".toList input_string.toList <;> rfl

/-- Witness for `C9_parse_failure_no_writes` on a tag-free input. -/
theorem C9_witness :
    findTag "<header>".toList "</header>".toList ("hello" : String).toList = none ∧
    (process_document "hello" "x.docx" { fs := [], faults := [], closed := 0 } =
      (Except.ok "Error: Input string must contain both <header> and <body> tags.",
        { fs := [], faults := [], closed := 0 })) :=
  ⟨by decide,
    C9_parse_failure_no_writes "hello" "x.docx" _ (Or.inl (by decide))⟩

/-- The fixed success message `process_document` returns whenever it returns
normally, regardless of the stage results it printed and discarded. -/
def processSuccessMsg (filename : String) : String :=
  s!"Process completed successfully. Document '{filename}' converted to '{processPdfFilename filename}' and uploaded."

/-- CLAIM C4 (amended, counterexample `C4_counterexample`): `process_document`
prints and otherwise ignores the result message of every pipeline stage: a
stage's failure result does not stop the later stages from running, and
whenever `process_document` returns without a propagated exception — both
tags present — its final status is the fixed success message, never a
stage's failure message. -/
theorem C4_amended_fixed_success_message (input_string filename : String)
    (s s2 : St) (r : String)
    (hrun : (process_document input_string filename) s = (Except.ok r, s2))
    (hH : findTag "<header>".toList "</header>".toList input_string.toList ≠ none)
    (hB : findTag "<body>".toList "</body>".toList input_string.toList ≠ none) :
    r = processSuccessMsg filename := by
  cases hh : findTag "<header>".toList "</header>".toList input_string.toList with
  | none => exact absurd hh hH
  | some hdr =>
    cases hb : findTag "<body>".toList "</body>".toList input_string.toList with
    | none => exact absurd hb hB
    | some bdy =>
      unfold process_document at hrun
      rw [hh, hb] at hrun
      obtain ⟨a1, s1', hx1, hrun⟩ := bind_eq_ok hrun
      obtain ⟨a2, s2', hx2, hrun⟩ := bind_eq_ok hrun
      obtain ⟨a3, s3', hx3, hrun⟩ := bind_eq_ok hrun
      obtain ⟨a4, s4', hx4, hrun⟩ := bind_eq_ok hrun
      obtain ⟨a5, s5', hx5, hrun⟩ := bind_eq_ok hrun
      have h5 : Except.ok (processSuccessMsg filename) = Except.ok r :=
        congrArg Prod.fst hrun
      exact (Except.ok.inj h5).symm

/-- CLAIM C4, counterexample to the claim as stated: with both tags present
and an external fault injected into the conversion stage (`spireLoad` raises
`Boom`, so `convert_to_pdf` returns its failure message), the upload stage
still executes — it removes the stale `/tmp/r.pdf` that the converter never
replaced — and `process_document` returns the fixed success message rather
than the conversion stage's failure message. -/
theorem C4_counterexample :
    (process_document "<header>H</header><body>B</body>" "r.docx"
        { fs := [("/tmp/r.pdf", FileData.pdf [])],
          faults := [none, none, none, none, none, some "Boom", none],
          closed := 0 }).1 =
      Except.ok "Process completed successfully. Document 'r.docx' converted to 'r.pdf' and uploaded." ∧
    fsGet ((process_document "<header>H</header><body>B</body>" "r.docx"
        { fs := [("/tmp/r.pdf", FileData.pdf [])],
          faults := [none, none, none, none, none, some "Boom", none],
          closed := 0 }).2).fs "/tmp/r.pdf" = none := by
  decide

/-- Witness for `C4_amended_fixed_success_message` on a fault-free run. -/
theorem C4_witness :
    "Process completed successfully. Document 'r.docx' converted to 'r.pdf' and uploaded." =
      processSuccessMsg "r.docx" :=
  C4_amended_fixed_success_message "<header>H</header><body>B</body>" "r.docx"
    { fs := [], faults := [], closed := 0 }
    { fs := [("/tmp/r.docx",
        FileData.docx [Block.heading "H" 1, Block.paragraph "B"])],
      faults := [], closed := 1 }
    "Process completed successfully. Document 'r.docx' converted to 'r.pdf' and uploaded."
    (by decide) (by decide) (by decide)

/-- CLAIM C5: whenever `download_document` succeeds — the resolved path held
a file, referred to a regular file, and no external fault fired — it returns
the base64 text of that file's bytes and deletes the file, so the path no
longer exists and a second `download_document` for the same filename returns
the `NotFound` result `Error: File not found on the server.` instead of a
second successful download. -/
theorem C5_download_is_destructive (filename : String) (s : St) (d : FileData)
    (hfile : fsGet s.fs (get_safe_filepath filename) = some d)
    (hdir : refersToDir (get_safe_filepath filename) = false)
    (hfaults : s.faults = []) :
    (download_document filename) s =
      (Except.ok ((b64encode (serialize d)).asString),
        { s with fs := fsRemove s.fs (get_safe_filepath filename) }) ∧
    fsGet (fsRemove s.fs (get_safe_filepath filename)) (get_safe_filepath filename) =
      none ∧
    (download_document filename)
        { s with fs := fsRemove s.fs (get_safe_filepath filename) } =
      (Except.ok "Error: File not found on the server.",
        { s with fs := fsRemove s.fs (get_safe_filepath filename) }) := by
  have hopen : (osOpenRead (get_safe_filepath filename)) s = (Except.ok d, s) := by
    unfold osOpenRead
    rw [extCall_apply, hfaults]
    simp [hdir, hfile]
  have hremove : (osRemove (get_safe_filepath filename)) s =
      (Except.ok (), { s with fs := fsRemove s.fs (get_safe_filepath filename) }) := by
    unfold osRemove
    rw [extCall_apply, hfaults]
    simp [hdir, hfile]
  have hf2 : ({ s with fs := fsRemove s.fs (get_safe_filepath filename) } : St).faults
      = [] := hfaults
  have hopen2 : (osOpenRead (get_safe_filepath filename))
      { s with fs := fsRemove s.fs (get_safe_filepath filename) } =
      (Except.error "FileNotFoundError",
        { s with fs := fsRemove s.fs (get_safe_filepath filename) }) := by
    unfold osOpenRead
    rw [extCall_apply, hf2]
    simp [hdir, fsGet_fsRemove_same]
  refine ⟨?_, fsGet_fsRemove_same _ _, ?_⟩
  · unfold download_document
    apply tryCatchAll_of_body_ok
    show ((osOpenRead (get_safe_filepath filename) >>= fun d0 =>
        osRemove (get_safe_filepath filename) >>= fun _ =>
        pure ((b64encode (serialize d0)).asString) : M String)) s = _
    rw [bind_ok_step hopen]
    show ((osRemove (get_safe_filepath filename) >>= fun _ =>
        pure ((b64encode (serialize d)).asString) : M String)) s = _
    rw [bind_ok_step hremove]
    rfl
  · unfold download_document
    rw [tryCatchAll_of_body_error (bind_error_step hopen2)]
    rfl

/-- Witness for `C5_download_is_destructive`: a stored `/tmp/a.docx` is
downloadable exactly once. -/
theorem C5_witness :
    (download_document "a.docx"
        { fs := [("/tmp/a.docx", FileData.docx [])], faults := [], closed := 0 }).1 =
      Except.ok ((b64encode (serialize (FileData.docx []))).asString) ∧
    (download_document "a.docx"
        { fs := fsRemove [("/tmp/a.docx", FileData.docx [])]
            (get_safe_filepath "a.docx"),
          faults := [], closed := 0 }).1 =
      Except.ok "Error: File not found on the server." := by
  have h := C5_download_is_destructive "a.docx"
    { fs := [("/tmp/a.docx", FileData.docx [])], faults := [], closed := 0 }
    (FileData.docx []) (by decide) (by decide) rfl
  exact ⟨congrArg Prod.fst h.1, congrArg Prod.fst h.2.2⟩
